import Mathlib

/-!
# F1 Statistics Dashboard — season aggregation engine, shallow embedding

This file embeds the aggregation routines of `src/f1_dashboard.py`
(`F1Dashboard.count_podiums`, `count_dnfs`, `compare_drivers`,
`export_full_season_details`) as executable Lean definitions and proves
the spec's testable properties about them.

Modelling conventions:
* A race session's result set (`session.results`) is a `List RaceResultRow`
  in the provider's given row order.
* The `fastf1` provider boundary is a parameter: `fetch : Nat → Option Session`
  (`none` models `fastf1.get_session`/`session.load()` raising, which the
  Python code catches and skips) and an optional schedule
  (`none` models `get_event_schedule` failing, upon which the Python code
  returns `None`).
* Pandas timestamps are modelled as integers; `Position` (a float column
  that may hold NaN) is `Option Nat`, with `none` for NaN, which pandas
  sorts last; `Points` is `ℚ`.
* Python dicts keyed by driver/team are association lists in insertion
  order; `bumpBy t k v` mirrors `if k in t: t[k] += v else: t[k] = v`.
-/

/-- One row of `session.results` as used by the dashboard. -/
structure RaceResultRow where
  abbreviation : String
  fullName : String
  teamName : String
  position : Option Nat
  points : ℚ
  status : String
  deriving Repr, DecidableEq

/-- A race session's classified result set, in provider row order. -/
abbrev Session := List RaceResultRow

/-- One row of the event schedule returned by `fastf1.get_event_schedule`:
the round number and the event date (a timestamp, modelled as `ℤ`). -/
structure ScheduleEntry where
  roundNumber : Nat
  eventDate : ℤ
  deriving Repr, DecidableEq

/-- `race_schedule[race_schedule['EventDate'] < pd.Timestamp(datetime.now())]['RoundNumber'].tolist()`:
the round numbers of schedule entries whose event date is strictly earlier
than the current wall-clock time. -/
def completedRounds (sched : List ScheduleEntry) (now : ℤ) : List Nat :=
  (sched.filter (fun e => e.eventDate < now)).map (fun e => e.roundNumber)

/-- Pandas ascending comparison on the `Position` column: NaN (here `none`)
sorts after every number. -/
def posLE (a b : Option Nat) : Bool :=
  match a, b with
  | some x, some y => x ≤ y
  | some _, none => true
  | none, some _ => false
  | none, none => true

/-- `session.results.sort_values('Position')`: the result rows in ascending
`Position` order, NaN last. (Which stable/unstable sort is used is
immaterial to the properties proved below; they depend only on the sorted
list being a permutation of the input.) -/
def sortByPosition (s : Session) : Session :=
  s.insertionSort (fun a b => posLE a.position b.position = true)

/-- `session.results.sort_values('Position').head(3)['Abbreviation'].tolist()`:
the abbreviations of the three rows with the lowest finishing position. -/
def podiumDrivers (s : Session) : List String :=
  ((sortByPosition s).take 3).map (fun r => r.abbreviation)

/-- `session.results[~session.results['Status'].isin(['Finished'])]['Abbreviation'].tolist()`:
the abbreviations of the rows whose status is not exactly `"Finished"`. -/
def dnfDrivers (s : Session) : List String :=
  (s.filter (fun r => r.status ≠ "Finished")).map (fun r => r.abbreviation)

/-- Python dict update `if k in t: t[k] += v else: t[k] = v` on a dict in
insertion order (`count_podiums` / `count_dnfs` use `v = 1`;
`export_full_season_details` inserts `0` then adds the points, which is the
same thing). -/
def bumpBy {α : Type} [Add α] : List (String × α) → String → α →
    List (String × α)
  | [], k, v => [(k, v)]
  | p :: t, k, v =>
    if p.1 = k then (p.1, p.2 + v) :: t else p :: bumpBy t k v

/-- Python dict read with a default of `0` (`driver_points[driver]` after the
`if driver not in driver_points: driver_points[driver] = 0` guard). -/
def lookup0 {α : Type} [Zero α] (t : List (String × α)) (k : String) : α :=
  match t.find? (fun p => p.1 = k) with
  | some p => p.2
  | none => 0

/-- The sum of the counter values of a tally dict. -/
def tallySum {α : Type} [AddCommMonoid α] (t : List (String × α)) : α :=
  (t.map (fun p => p.2)).sum

/-- The `for round_num in completed_rounds` loop of `count_podiums`
(lines 156–174): fetch each round, skip it on failure, otherwise bump the
podium counter of each of the top-three drivers. -/
def countPodiumsRounds (fetch : Nat → Option Session) (rounds : List Nat) :
    List (String × Nat) :=
  rounds.foldl
    (fun t r =>
      match fetch r with
      | none => t
      | some s => (podiumDrivers s).foldl (fun t d => bumpBy t d 1) t)
    []

/-- The `for round_num in completed_rounds` loop of `count_dnfs`
(lines 198–216): fetch each round, skip it on failure, otherwise bump the
DNF counter of every non-`Finished` row's driver. -/
def countDnfsRounds (fetch : Nat → Option Session) (rounds : List Nat) :
    List (String × Nat) :=
  rounds.foldl
    (fun t r =>
      match fetch r with
      | none => t
      | some s => (dnfDrivers s).foldl (fun t d => bumpBy t d 1) t)
    []

/-- `F1Dashboard.count_podiums`: returns `None` when the schedule cannot be
fetched, otherwise the podium tally over the completed rounds. -/
def count_podiums (sched : Option (List ScheduleEntry)) (now : ℤ)
    (fetch : Nat → Option Session) : Option (List (String × Nat)) :=
  sched.map (fun rs => countPodiumsRounds fetch (completedRounds rs now))

/-- `F1Dashboard.count_dnfs`: returns `None` when the schedule cannot be
fetched, otherwise the DNF tally over the completed rounds. -/
def count_dnfs (sched : Option (List ScheduleEntry)) (now : ℤ)
    (fetch : Nat → Option Session) : Option (List (String × Nat)) :=
  sched.map (fun rs => countDnfsRounds fetch (completedRounds rs now))

/-- `session.results[session.results['Abbreviation'] == driver]`: the rows of
a result set whose abbreviation matches the named driver exactly. -/
def driverRows (s : Session) (d : String) : List RaceResultRow :=
  s.filter (fun r => r.abbreviation = d)

/-- `driver_result['Points'].values[0]` guarded by `if not driver_result.empty`:
the points of the first matching row, or `0` when the driver is absent. -/
def driverRoundPoints (s : Session) (d : String) : ℚ :=
  match driverRows s d with
  | [] => 0
  | row :: _ => row.points

/-- `driver_result['Position'].values[0] == 1` guarded by
`if not driver_result.empty`: whether the driver's first matching row
finished in position 1. -/
def driverRoundWin (s : Session) (d : String) : Bool :=
  match driverRows s d with
  | [] => false
  | row :: _ => row.position = some 1

/-- One entry of `comparison_data` in `F1Dashboard.compare_drivers`. -/
structure ComparisonRecord where
  year : Nat
  points1 : ℚ
  points2 : ℚ
  wins1 : Nat
  wins2 : Nat
  deriving Repr, DecidableEq

/-- The inner `for round_num in completed_rounds` loop of `compare_drivers`
(lines 248–270): starting from fresh zero counters for the year, fetch each
completed round (skipping failures) and accumulate each driver's points and
wins. -/
def yearRecord (d1 d2 : String) (fetch : Nat → Nat → Option Session) (now : ℤ)
    (y : Nat) (sched : List ScheduleEntry) : ComparisonRecord :=
  (completedRounds sched now).foldl
    (fun rec r =>
      match fetch y r with
      | none => rec
      | some s =>
        { rec with
          points1 := rec.points1 + driverRoundPoints s d1
          points2 := rec.points2 + driverRoundPoints s d2
          wins1 := rec.wins1 + (if driverRoundWin s d1 then 1 else 0)
          wins2 := rec.wins2 + (if driverRoundWin s d2 then 1 else 0) })
    { year := y, points1 := 0, points2 := 0, wins1 := 0, wins2 := 0 }

/-- `F1Dashboard.compare_drivers`: for each year in the range, skip the year
if its schedule cannot be fetched, otherwise append the per-year record of
both drivers' points and wins over that year's completed rounds. -/
def compare_drivers (d1 d2 : String) (years : List Nat)
    (schedOf : Nat → Option (List ScheduleEntry))
    (fetch : Nat → Nat → Option Session) (now : ℤ) : List ComparisonRecord :=
  years.foldl
    (fun acc y =>
      match schedOf y with
      | none => acc
      | some sched => acc ++ [yearRecord d1 d2 fetch now y sched])
    []

/-- One entry of `all_results` in `F1Dashboard.export_full_season_details`. -/
structure ExportRow where
  round : Nat
  driver : String
  fullName : String
  team : String
  position : Option Nat
  points : ℚ
  status : String
  cumulativePoints : ℚ
  deriving Repr, DecidableEq

/-- The accumulation state of `export_full_season_details`: the `all_results`
list and the `driver_points` / `team_points` dicts. -/
structure ExportState where
  allResults : List ExportRow
  driverPoints : List (String × ℚ)
  teamPoints : List (String × ℚ)
  deriving Repr, DecidableEq

/-- The `for _, result in session.results.iterrows()` body (lines 386–411):
add the row's points to the driver's and team's season totals, then append
the row to `all_results` carrying the driver's updated running total as
`CumulativePoints`. -/
def processRow (rnd : Nat) (st : ExportState) (row : RaceResultRow) :
    ExportState :=
  let dp := bumpBy st.driverPoints row.abbreviation row.points
  let tp := bumpBy st.teamPoints row.teamName row.points
  { allResults := st.allResults ++
      [{ round := rnd
         driver := row.abbreviation
         fullName := row.fullName
         team := row.teamName
         position := row.position
         points := row.points
         status := row.status
         cumulativePoints := lookup0 dp row.abbreviation }]
    driverPoints := dp
    teamPoints := tp }

/-- The `for round_num in completed_rounds` loop of
`export_full_season_details` (lines 377–415): fetch each round, skip it on
failure, otherwise fold every result row into the state. -/
def exportRounds (fetch : Nat → Option Session) (rounds : List Nat) :
    ExportState :=
  rounds.foldl
    (fun st r =>
      match fetch r with
      | none => st
      | some s => s.foldl (processRow r) st)
    { allResults := [], driverPoints := [], teamPoints := [] }

/-- `F1Dashboard.export_full_season_details`: returns `None` when the
schedule cannot be fetched, otherwise the accumulated export state over the
completed rounds. -/
def export_full_season_details (sched : Option (List ScheduleEntry))
    (now : ℤ) (fetch : Nat → Option Session) : Option ExportState :=
  sched.map (fun rs => exportRounds fetch (completedRounds rs now))

/-- Running totals of a list of point values: `runningSums [a, b, c] =
[a, a + b, a + b + c]`. -/
def runningSumsFrom (acc : ℚ) : List ℚ → List ℚ
  | [] => []
  | x :: xs => (acc + x) :: runningSumsFrom (acc + x) xs

/-- The running totals of a list of point values, starting from zero. -/
def runningSums (l : List ℚ) : List ℚ :=
  runningSumsFrom 0 l

/-! ## Helper lemmas about the tally dictionaries -/

theorem tallySum_bumpBy {α : Type} [AddCommMonoid α] (t : List (String × α))
    (k : String) (v : α) : tallySum (bumpBy t k v) = tallySum t + v := by
  induction t with
  | nil => simp [bumpBy, tallySum]
  | cons p t ih =>
    by_cases h : p.1 = k
    · simp only [bumpBy, if_pos h, tallySum, List.map_cons, List.sum_cons]
      rw [add_right_comm]
    · simp only [bumpBy, if_neg h, tallySum, List.map_cons, List.sum_cons] at ih ⊢
      rw [ih, add_assoc]

theorem tallySum_bumpFold (ds : List String) :
    ∀ t : List (String × Nat),
      tallySum (ds.foldl (fun t d => bumpBy t d 1) t) = tallySum t + ds.length := by
  induction ds with
  | nil => intro t; simp
  | cons d ds ih =>
    intro t
    simp only [List.foldl_cons, List.length_cons, ih, tallySum_bumpBy]
    omega

theorem tallySum_countFold (fetch : Nat → Option Session)
    (extract : Session → List String) :
    ∀ (rounds : List Nat) (t : List (String × Nat)),
      tallySum (rounds.foldl
        (fun t r =>
          match fetch r with
          | none => t
          | some s => (extract s).foldl (fun t d => bumpBy t d 1) t) t)
      = tallySum t
        + (rounds.map (fun r =>
            match fetch r with
            | none => 0
            | some s => (extract s).length)).sum := by
  intro rounds
  induction rounds with
  | nil => intro t; simp
  | cons r rounds ih =>
    intro t
    cases h : fetch r with
    | none => simp [List.foldl_cons, h, ih]
    | some s =>
      simp only [List.foldl_cons, h, List.map_cons, List.sum_cons,
        ih, tallySum_bumpFold]
      omega

theorem length_podiumDrivers (s : Session) :
    (podiumDrivers s).length = min 3 s.length := by
  simp [podiumDrivers, sortByPosition, List.length_take,
    List.length_insertionSort]

theorem tallySum_countPodiumsRounds (fetch : Nat → Option Session)
    (rounds : List Nat) :
    tallySum (countPodiumsRounds fetch rounds)
      = (rounds.map (fun r =>
          match fetch r with
          | none => 0
          | some s => (podiumDrivers s).length)).sum := by
  have h := tallySum_countFold fetch podiumDrivers rounds []
  simpa [countPodiumsRounds, tallySum] using h

theorem tallySum_countDnfsRounds (fetch : Nat → Option Session)
    (rounds : List Nat) :
    tallySum (countDnfsRounds fetch rounds)
      = (rounds.map (fun r =>
          match fetch r with
          | none => 0
          | some s => (s.filter (fun row => row.status ≠ "Finished")).length)).sum := by
  have h := tallySum_countFold fetch dnfDrivers rounds []
  have hfun : (fun r =>
      match fetch r with
      | none => 0
      | some s => (dnfDrivers s).length)
    = (fun r =>
      match fetch r with
      | none => 0
      | some s => (s.filter (fun row => row.status ≠ "Finished")).length) := by
    funext r
    cases fetch r <;> simp [dnfDrivers]
  rw [← hfun]
  simpa [countDnfsRounds, tallySum] using h

theorem sum_podium_contribution (fetch : Nat → Option Session) :
    ∀ rounds : List Nat,
      (∀ r ∈ rounds, ∀ s, fetch r = some s → 3 ≤ s.length) →
      (rounds.map (fun r =>
        match fetch r with
        | none => 0
        | some s => (podiumDrivers s).length)).sum
      = 3 * (rounds.filter (fun r => (fetch r).isSome)).length := by
  intro rounds
  induction rounds with
  | nil => simp
  | cons r rounds ih =>
    intro h
    have hrest := ih (fun r hr s hs => h r (List.mem_cons_of_mem _ hr) s hs)
    cases hr : fetch r with
    | none => simp [hr, hrest]
    | some s =>
      have h3 : 3 ≤ s.length := h r (List.mem_cons_self _ _) s hr
      have hp : (podiumDrivers s).length = 3 := by
        rw [length_podiumDrivers]; omega
      simp only [List.map_cons, List.sum_cons, hr, hp, hrest,
        List.filter_cons, Option.isSome_some, if_true, List.length_cons]
      omega

/-! ## Example data used by the concrete witnesses -/

/-- Example result row: race winner. -/
def exRow1 : RaceResultRow :=
  ⟨"VER", "Max Verstappen", "Red Bull Racing", some 1, 25, "Finished"⟩

/-- Example result row: second place. -/
def exRow2 : RaceResultRow :=
  ⟨"HAM", "Lewis Hamilton", "Mercedes", some 2, 18, "Finished"⟩

/-- Example result row: third place. -/
def exRow3 : RaceResultRow :=
  ⟨"PER", "Sergio Perez", "Red Bull Racing", some 3, 15, "Finished"⟩

/-- Example result row: a retirement with no classified position. -/
def exRow4 : RaceResultRow :=
  ⟨"ALO", "Fernando Alonso", "Aston Martin", none, 0, "Engine"⟩

/-- Example session, in (unsorted) provider row order. -/
def exSession : Session := [exRow2, exRow1, exRow4, exRow3]

/-- Example schedule: three rounds, the third in the future at `now = 30`. -/
def exSched : List ScheduleEntry := [⟨1, 10⟩, ⟨2, 20⟩, ⟨3, 50⟩]

/-- Example provider: round 1 loads, every other round fails. -/
def exFetch : Nat → Option Session :=
  fun r => if r = 1 then some exSession else none

/-! ## C1 -/

/-- C1 counterexample: a successfully fetched round whose result set has a
single row contributes only one podium increment, so the podium-count total
is 1, not 3 × 1. -/
theorem podium_total_counterexample :
    count_podiums (some [⟨1, 0⟩]) 1 (fun r => if r = 1 then some [exRow1] else none)
      = some [("VER", 1)]
    ∧ tallySum [("VER", (1 : Nat))]
      ≠ 3 * ((completedRounds [⟨1, 0⟩] 1).filter
          (fun r => ((fun r => if r = 1 then some [exRow1] else none) r).isSome)).length := by
  constructor
  · rfl
  · decide

/-- C1 (amended): in every run of `count_podiums`, provided every
successfully fetched round's result set has at least three rows, the sum of
podium counts across all drivers equals 3 times the number of rounds whose
fetch-and-load succeeded. (Unconditionally, each successful round
contributes `min 3 (number of rows)` increments.) -/
theorem podium_total_three_per_success (sched : List ScheduleEntry) (now : ℤ)
    (fetch : Nat → Option Session) (t : List (String × Nat))
    (ht : count_podiums (some sched) now fetch = some t)
    (h3 : ∀ r ∈ completedRounds sched now, ∀ s, fetch r = some s → 3 ≤ s.length) :
    tallySum t
      = 3 * ((completedRounds sched now).filter
          (fun r => (fetch r).isSome)).length := by
  obtain rfl : t = countPodiumsRounds fetch (completedRounds sched now) := by
    simpa [count_podiums] using ht.symm
  rw [tallySum_countPodiumsRounds]
  exact sum_podium_contribution fetch (completedRounds sched now) h3

/-- C1 witness: the amended theorem applied to the example season (round 1
loads with four rows, round 2 fails, round 3 is in the future). -/
theorem podium_total_three_per_success_witness :
    tallySum (countPodiumsRounds exFetch (completedRounds exSched 30))
      = 3 * ((completedRounds exSched 30).filter
          (fun r => (exFetch r).isSome)).length := by
  refine podium_total_three_per_success exSched 30 exFetch _ rfl ?_
  intro r hr s hs
  have hsched : completedRounds exSched 30 = [1, 2] := by decide
  rw [hsched] at hr
  have hr12 : r = 1 ∨ r = 2 := by simpa using hr
  rcases hr12 with rfl | rfl
  · have : exSession = s := by
      simpa [exFetch] using hs
    subst this
    decide
  · simp [exFetch] at hs

/-! ## C2 -/

/-- C2: in every run of `count_dnfs`, the sum of DNF counts across all
drivers equals the sum, over successfully fetched rounds, of the number of
result rows whose status is not exactly `"Finished"`. -/
theorem dnf_total_eq_nonfinished_rows (sched : List ScheduleEntry) (now : ℤ)
    (fetch : Nat → Option Session) (t : List (String × Nat))
    (ht : count_dnfs (some sched) now fetch = some t) :
    tallySum t
      = ((completedRounds sched now).map (fun r =>
          match fetch r with
          | none => 0
          | some s => (s.filter (fun row => row.status ≠ "Finished")).length)).sum := by
  obtain rfl : t = countDnfsRounds fetch (completedRounds sched now) := by
    simpa [count_dnfs] using ht.symm
  exact tallySum_countDnfsRounds fetch (completedRounds sched now)

/-- C2 witness: the theorem applied to the example season, whose single
loaded round has exactly one non-`Finished` row. -/
theorem dnf_total_eq_nonfinished_rows_witness :
    tallySum (countDnfsRounds exFetch (completedRounds exSched 30))
      = ((completedRounds exSched 30).map (fun r =>
          match exFetch r with
          | none => 0
          | some s => (s.filter (fun row => row.status ≠ "Finished")).length)).sum :=
  dnf_total_eq_nonfinished_rows exSched 30 exFetch _ rfl

/-! ## C3 -/

/-- C3: a round whose fetch fails contributes zero to every counter: the
podium tally, the DNF tally and the full-season export (hence driver points,
team points and the per-row export data) over a round sequence containing
the failed round are identical to the ones over the same sequence with that
round removed entirely. -/
theorem failed_round_contributes_nothing (fetch : Nat → Option Session)
    (xs ys : List Nat) (r : Nat) (hr : fetch r = none) :
    countPodiumsRounds fetch (xs ++ r :: ys) = countPodiumsRounds fetch (xs ++ ys)
    ∧ countDnfsRounds fetch (xs ++ r :: ys) = countDnfsRounds fetch (xs ++ ys)
    ∧ exportRounds fetch (xs ++ r :: ys) = exportRounds fetch (xs ++ ys) := by
  refine ⟨?_, ?_, ?_⟩ <;>
    simp [countPodiumsRounds, countDnfsRounds, exportRounds,
      List.foldl_append, List.foldl_cons, hr]

/-- C3 witness: in the example season, inserting failing round 2 between
rounds 1 and 3 leaves all three accumulations unchanged. -/
theorem failed_round_contributes_nothing_witness :
    countPodiumsRounds exFetch ([1] ++ 2 :: [3]) = countPodiumsRounds exFetch ([1] ++ [3])
    ∧ countDnfsRounds exFetch ([1] ++ 2 :: [3]) = countDnfsRounds exFetch ([1] ++ [3])
    ∧ exportRounds exFetch ([1] ++ 2 :: [3]) = exportRounds exFetch ([1] ++ [3]) :=
  failed_round_contributes_nothing exFetch [1] [3] 2 rfl

/-! ## C4 -/

/-- C4: a round number is selected for processing by the completed-round
filter exactly when some schedule entry carries it with an event date
strictly earlier than the current wall-clock time; rounds at or after that
time are excluded, and the aggregators process exactly the rounds this
filter selects. -/
theorem completed_round_iff_before_now (sched : List ScheduleEntry) (now : ℤ)
    (r : Nat) (fetch : Nat → Option Session) :
    (r ∈ completedRounds sched now
      ↔ ∃ e ∈ sched, e.roundNumber = r ∧ e.eventDate < now)
    ∧ count_podiums (some sched) now fetch
      = some (countPodiumsRounds fetch (completedRounds sched now))
    ∧ export_full_season_details (some sched) now fetch
      = some (exportRounds fetch (completedRounds sched now)) := by
  refine ⟨?_, rfl, rfl⟩
  simp only [completedRounds, List.mem_map, List.mem_filter, decide_eq_true_eq]
  constructor
  · rintro ⟨e, ⟨he, hd⟩, hr⟩
    exact ⟨e, he, hr, hd⟩
  · rintro ⟨e, he, hr, hd⟩
    exact ⟨e, ⟨he, hd⟩, hr⟩

/-! ## C5 -/

/-- C5: in the per-round lookup of `compare_drivers`, a driver whose
abbreviation matches no row of the round's result set contributes zero
points and no win (and the lookup is total, raising nothing); a win is
counted exactly when the driver's row is present and its finishing position
equals 1. -/
theorem missing_driver_zero_contribution (s : Session) (d : String) :
    (driverRows s d = [] → driverRoundPoints s d = 0 ∧ driverRoundWin s d = false)
    ∧ (driverRoundWin s d = true
        ↔ ∃ row rest, driverRows s d = row :: rest ∧ row.position = some 1) := by
  rcases h : driverRows s d with _ | ⟨row, rest⟩
  · refine ⟨fun _ => ?_, ?_⟩
    · simp [driverRoundPoints, driverRoundWin, h]
    · simp [driverRoundWin, h]
  · refine ⟨fun hc => absurd hc (List.cons_ne_nil _ _), ?_⟩
    simp only [driverRoundWin, h]
    constructor
    · intro hw
      exact ⟨row, rest, rfl, by simpa using hw⟩
    · rintro ⟨row2, rest2, heq, hpos⟩
      obtain ⟨rfl, rfl⟩ : row = row2 ∧ rest = rest2 := by
        simpa using heq
      simpa using hpos

/-- C5 witness: the theorem applied to the example session for an absent
driver (zero contribution) and for the actual winner (win counted). -/
theorem missing_driver_zero_contribution_witness :
    (driverRoundPoints exSession "NOR" = 0 ∧ driverRoundWin exSession "NOR" = false)
    ∧ driverRoundWin exSession "VER" = true :=
  ⟨(missing_driver_zero_contribution exSession "NOR").1 (by decide),
   (missing_driver_zero_contribution exSession "VER").2.mpr
     ⟨exRow1, [], by decide, by decide⟩⟩

/-! ## C6 -/

theorem compare_foldl_acc (d1 d2 : String)
    (schedOf : Nat → Option (List ScheduleEntry))
    (fetch : Nat → Nat → Option Session) (now : ℤ) :
    ∀ (years : List Nat) (acc : List ComparisonRecord),
      years.foldl
        (fun acc y =>
          match schedOf y with
          | none => acc
          | some sched => acc ++ [yearRecord d1 d2 fetch now y sched]) acc
      = acc ++ years.filterMap
          (fun y => (schedOf y).map (yearRecord d1 d2 fetch now y)) := by
  intro years
  induction years with
  | nil => intro acc; simp
  | cons y years ih =>
    intro acc
    cases h : schedOf y with
    | none => simp [List.foldl_cons, h, ih, List.filterMap_cons]
    | some sched =>
      simp [List.foldl_cons, h, ih, List.filterMap_cons, List.append_assoc]

theorem compare_drivers_spec (d1 d2 : String) (years : List Nat)
    (schedOf : Nat → Option (List ScheduleEntry))
    (fetch : Nat → Nat → Option Session) (now : ℤ) :
    compare_drivers d1 d2 years schedOf fetch now
      = years.filterMap
          (fun y => (schedOf y).map (yearRecord d1 d2 fetch now y)) := by
  simpa [compare_drivers] using
    compare_foldl_acc d1 d2 schedOf fetch now years []

theorem length_filterMap_records
    (schedOf : Nat → Option (List ScheduleEntry))
    (g : Nat → List ScheduleEntry → ComparisonRecord) :
    ∀ years : List Nat,
      (years.filterMap (fun y => (schedOf y).map (g y))).length
        = (years.filter (fun y => (schedOf y).isSome)).length := by
  intro years
  induction years with
  | nil => rfl
  | cons y ys ih =>
    cases h : schedOf y <;>
      simp [List.filterMap_cons, h, List.filter_cons, ih]

/-- C6: per-round failures never abort any multi-round aggregation: each
season aggregator returns a tally exactly when the year's schedule could be
enumerated (fetch failures never make the result `none`);
`compare_drivers` emits one record for every year whose schedule could be
enumerated regardless of fetch failures (only schedule-enumeration failure
drops a year); and a round whose fetch fails, at any position in the round
sequence, is skipped with the loop continuing over the remaining rounds —
both in the three season loops and in the inner per-round loop of
`compare_drivers` from any intermediate accumulator. -/
theorem aggregation_survives_round_failures (fetch : Nat → Option Session)
    (now : ℤ) (sched : Option (List ScheduleEntry)) (d1 d2 : String)
    (years : List Nat) (schedOf : Nat → Option (List ScheduleEntry))
    (fetch2 : Nat → Nat → Option Session) :
    ((count_podiums sched now fetch).isSome ↔ sched.isSome)
    ∧ ((count_dnfs sched now fetch).isSome ↔ sched.isSome)
    ∧ ((export_full_season_details sched now fetch).isSome ↔ sched.isSome)
    ∧ (compare_drivers d1 d2 years schedOf fetch2 now).length
        = (years.filter (fun y => (schedOf y).isSome)).length
    ∧ (∀ (xs ys : List Nat) (r : Nat), fetch r = none →
        countPodiumsRounds fetch (xs ++ r :: ys) = countPodiumsRounds fetch (xs ++ ys)
        ∧ countDnfsRounds fetch (xs ++ r :: ys) = countDnfsRounds fetch (xs ++ ys)
        ∧ exportRounds fetch (xs ++ r :: ys) = exportRounds fetch (xs ++ ys))
    ∧ ∀ (y : Nat) (rec : ComparisonRecord) (xs ys : List Nat) (r : Nat),
        fetch2 y r = none →
        (xs ++ r :: ys).foldl
          (fun rec r =>
            match fetch2 y r with
            | none => rec
            | some s =>
              { rec with
                points1 := rec.points1 + driverRoundPoints s d1
                points2 := rec.points2 + driverRoundPoints s d2
                wins1 := rec.wins1 + (if driverRoundWin s d1 then 1 else 0)
                wins2 := rec.wins2 + (if driverRoundWin s d2 then 1 else 0) })
          rec
        = (xs ++ ys).foldl
          (fun rec r =>
            match fetch2 y r with
            | none => rec
            | some s =>
              { rec with
                points1 := rec.points1 + driverRoundPoints s d1
                points2 := rec.points2 + driverRoundPoints s d2
                wins1 := rec.wins1 + (if driverRoundWin s d1 then 1 else 0)
                wins2 := rec.wins2 + (if driverRoundWin s d2 then 1 else 0) })
          rec := by
  refine ⟨?_, ?_, ?_, ?_, ?_, ?_⟩
  · cases sched <;> simp [count_podiums]
  · cases sched <;> simp [count_dnfs]
  · cases sched <;> simp [export_full_season_details]
  · rw [compare_drivers_spec]
    exact length_filterMap_records schedOf (yearRecord d1 d2 fetch2 now) years
  · intro xs ys r hr
    refine ⟨?_, ?_, ?_⟩ <;>
      simp [countPodiumsRounds, countDnfsRounds, exportRounds,
        List.foldl_append, List.foldl_cons, hr]
  · intro y rec xs ys r hr
    simp [List.foldl_append, List.foldl_cons, hr]

/-- C6 witness: with the example providers (round 2 always fails), every
aggregator still returns a tally for the example schedule, the comparison
still emits its record for the year, and inserting failing round 2
mid-sequence changes neither the podium loop nor the comparison's inner
loop. -/
theorem aggregation_survives_round_failures_witness :
    (count_podiums (some exSched) 30 exFetch).isSome = true
    ∧ (compare_drivers "VER" "HAM" [2021] (fun _ => some exSched)
        (fun _ r => if r = 1 then some exSession else none) 30).length
      = ([2021].filter (fun y => ((fun _ => some exSched) y).isSome)).length
    ∧ countPodiumsRounds exFetch ([1] ++ 2 :: [3]) = countPodiumsRounds exFetch ([1] ++ [3])
    ∧ ([1] ++ 2 :: [3]).foldl
        (fun (rec : ComparisonRecord) r =>
          match (if r = 1 then some exSession else none : Option Session) with
          | none => rec
          | some s =>
            { rec with
              points1 := rec.points1 + driverRoundPoints s "VER"
              points2 := rec.points2 + driverRoundPoints s "HAM"
              wins1 := rec.wins1 + (if driverRoundWin s "VER" then 1 else 0)
              wins2 := rec.wins2 + (if driverRoundWin s "HAM" then 1 else 0) })
        (⟨2021, 0, 0, 0, 0⟩ : ComparisonRecord)
      = ([1] ++ [3]).foldl
        (fun (rec : ComparisonRecord) r =>
          match (if r = 1 then some exSession else none : Option Session) with
          | none => rec
          | some s =>
            { rec with
              points1 := rec.points1 + driverRoundPoints s "VER"
              points2 := rec.points2 + driverRoundPoints s "HAM"
              wins1 := rec.wins1 + (if driverRoundWin s "VER" then 1 else 0)
              wins2 := rec.wins2 + (if driverRoundWin s "HAM" then 1 else 0) })
        ⟨2021, 0, 0, 0, 0⟩ := by
  have h := aggregation_survives_round_failures exFetch 30 (some exSched)
    "VER" "HAM" [2021] (fun _ => some exSched)
    (fun _ r => if r = 1 then some exSession else none)
  exact ⟨by simpa using h.1.mpr rfl, h.2.2.2.1,
    (h.2.2.2.2.1 [1] [3] 2 rfl).1,
    h.2.2.2.2.2 2021 ⟨2021, 0, 0, 0, 0⟩ [1] [3] 2 rfl⟩

/-! ## C7 -/

/-- C7 counterexample: when a year's round enumeration fails, that year is
skipped entirely, so the output does not contain one record per requested
year. -/
theorem one_record_per_year_counterexample :
    (compare_drivers "VER" "HAM" [2021] (fun _ => none) (fun _ _ => none) 0).length
      ≠ [2021].length := by
  decide

/-- C7 (amended): `compare_drivers` yields, in year order, exactly one
record per year whose round enumeration succeeded (a year whose schedule
cannot be fetched is silently skipped); each record is `yearRecord` for its
year — computed from fresh zero counters over only that year's completed
rounds, never accumulated across years. -/
theorem one_record_per_enumerated_year (d1 d2 : String) (years : List Nat)
    (schedOf : Nat → Option (List ScheduleEntry))
    (fetch : Nat → Nat → Option Session) (now : ℤ) :
    compare_drivers d1 d2 years schedOf fetch now
      = years.filterMap
          (fun y => (schedOf y).map (yearRecord d1 d2 fetch now y))
    ∧ (compare_drivers d1 d2 years schedOf fetch now).length
      = (years.filter (fun y => (schedOf y).isSome)).length := by
  refine ⟨compare_drivers_spec d1 d2 years schedOf fetch now, ?_⟩
  rw [compare_drivers_spec d1 d2 years schedOf fetch now]
  exact length_filterMap_records schedOf (yearRecord d1 d2 fetch now) years

/-! ## C8 -/

theorem yearRecord_fold_self (d : String) (fetch : Nat → Nat → Option Session)
    (y : Nat) :
    ∀ (rounds : List Nat) (rec : ComparisonRecord),
      rec.points1 = rec.points2 → rec.wins1 = rec.wins2 →
      (rounds.foldl
        (fun rec r =>
          match fetch y r with
          | none => rec
          | some s =>
            { rec with
              points1 := rec.points1 + driverRoundPoints s d
              points2 := rec.points2 + driverRoundPoints s d
              wins1 := rec.wins1 + (if driverRoundWin s d then 1 else 0)
              wins2 := rec.wins2 + (if driverRoundWin s d then 1 else 0) })
        rec).points1
      = (rounds.foldl
        (fun rec r =>
          match fetch y r with
          | none => rec
          | some s =>
            { rec with
              points1 := rec.points1 + driverRoundPoints s d
              points2 := rec.points2 + driverRoundPoints s d
              wins1 := rec.wins1 + (if driverRoundWin s d then 1 else 0)
              wins2 := rec.wins2 + (if driverRoundWin s d then 1 else 0) })
        rec).points2
      ∧ (rounds.foldl
        (fun rec r =>
          match fetch y r with
          | none => rec
          | some s =>
            { rec with
              points1 := rec.points1 + driverRoundPoints s d
              points2 := rec.points2 + driverRoundPoints s d
              wins1 := rec.wins1 + (if driverRoundWin s d then 1 else 0)
              wins2 := rec.wins2 + (if driverRoundWin s d then 1 else 0) })
        rec).wins1
      = (rounds.foldl
        (fun rec r =>
          match fetch y r with
          | none => rec
          | some s =>
            { rec with
              points1 := rec.points1 + driverRoundPoints s d
              points2 := rec.points2 + driverRoundPoints s d
              wins1 := rec.wins1 + (if driverRoundWin s d then 1 else 0)
              wins2 := rec.wins2 + (if driverRoundWin s d then 1 else 0) })
        rec).wins2 := by
  intro rounds
  induction rounds with
  | nil => intro rec hp hw; exact ⟨hp, hw⟩
  | cons r rounds ih =>
    intro rec hp hw
    cases h : fetch y r with
    | none => simpa [List.foldl_cons, h] using ih rec hp hw
    | some s =>
      simp only [List.foldl_cons, h]
      exact ih _ (by simp [hp]) (by simp [hw])

theorem yearRecord_self_eq (d : String) (fetch : Nat → Nat → Option Session)
    (now : ℤ) (y : Nat) (sched : List ScheduleEntry) :
    (yearRecord d d fetch now y sched).points1
      = (yearRecord d d fetch now y sched).points2
    ∧ (yearRecord d d fetch now y sched).wins1
      = (yearRecord d d fetch now y sched).wins2 := by
  unfold yearRecord
  exact yearRecord_fold_self d fetch y (completedRounds sched now) _ rfl rfl

/-- The record produced by comparing a driver with themselves over the
example round. -/
def exSelfRecord : ComparisonRecord :=
  yearRecord "VER" "VER" (fun _ r => if r = 1 then some exSession else none)
    30 2021 [⟨1, 10⟩]

/-- C8: every record produced by comparing a driver abbreviation with
itself carries equal points for the two compared drivers and equal win
counts for the two compared drivers. -/
theorem self_comparison_symmetric (d : String) (years : List Nat)
    (schedOf : Nat → Option (List ScheduleEntry))
    (fetch : Nat → Nat → Option Session) (now : ℤ) (rec : ComparisonRecord)
    (h : rec ∈ compare_drivers d d years schedOf fetch now) :
    rec.points1 = rec.points2 ∧ rec.wins1 = rec.wins2 := by
  rw [compare_drivers_spec] at h
  obtain ⟨y, hy, hrec⟩ := List.mem_filterMap.mp h
  cases hs : schedOf y with
  | none => rw [hs] at hrec; simp at hrec
  | some sched =>
    rw [hs] at hrec
    obtain rfl : yearRecord d d fetch now y sched = rec := by simpa using hrec
    exact yearRecord_self_eq d fetch now y sched

/-- C8 witness: the theorem applied to a one-year self-comparison over the
example session. -/
theorem self_comparison_symmetric_witness :
    exSelfRecord.points1 = exSelfRecord.points2
    ∧ exSelfRecord.wins1 = exSelfRecord.wins2 :=
  self_comparison_symmetric "VER" [2021] (fun _ => some [⟨1, 10⟩])
    (fun _ r => if r = 1 then some exSession else none) 30 exSelfRecord
    (by
      have h : compare_drivers "VER" "VER" [2021] (fun _ => some [⟨1, 10⟩])
          (fun _ r => if r = 1 then some exSession else none) 30
          = [exSelfRecord] := rfl
      rw [h]
      exact List.mem_singleton.mpr rfl)

/-! ## C9 -/

theorem mem_bumpBy_pos :
    ∀ (t : List (String × Nat)) (k : String),
      (∀ q ∈ t, 1 ≤ q.2) → ∀ q ∈ bumpBy t k 1, 1 ≤ q.2 := by
  intro t
  induction t with
  | nil =>
    intro k _ q hq
    simp only [bumpBy, List.mem_singleton] at hq
    simp [hq]
  | cons p t ih =>
    intro k h q hq
    by_cases hp : p.1 = k
    · simp only [bumpBy, if_pos hp, List.mem_cons] at hq
      rcases hq with rfl | hq
      · simp
      · exact h q (List.mem_cons_of_mem _ hq)
    · simp only [bumpBy, if_neg hp, List.mem_cons] at hq
      rcases hq with rfl | hq
      · exact h q (List.mem_cons_self _ _)
      · exact ih k (fun q hq => h q (List.mem_cons_of_mem _ hq)) q hq

theorem mem_bumpFold_pos (ds : List String) :
    ∀ t : List (String × Nat),
      (∀ q ∈ t, 1 ≤ q.2) →
      ∀ q ∈ ds.foldl (fun t d => bumpBy t d 1) t, 1 ≤ q.2 := by
  induction ds with
  | nil => intro t h q hq; exact h q hq
  | cons d ds ih =>
    intro t h q hq
    exact ih (bumpBy t d 1) (mem_bumpBy_pos t d h) q (by simpa using hq)

theorem mem_countFold_pos (fetch : Nat → Option Session)
    (extract : Session → List String) :
    ∀ (rounds : List Nat) (t : List (String × Nat)),
      (∀ q ∈ t, 1 ≤ q.2) →
      ∀ q ∈ rounds.foldl
        (fun t r =>
          match fetch r with
          | none => t
          | some s => (extract s).foldl (fun t d => bumpBy t d 1) t) t,
        1 ≤ q.2 := by
  intro rounds
  induction rounds with
  | nil => intro t h q hq; exact h q hq
  | cons r rounds ih =>
    intro t h q hq
    cases hr : fetch r with
    | none =>
      rw [List.foldl_cons] at hq
      simp only [hr] at hq
      exact ih t h q hq
    | some s =>
      rw [List.foldl_cons] at hq
      simp only [hr] at hq
      exact ih _ (mem_bumpFold_pos (extract s) t h) q hq

/-- C9: every driver that appears as a key in the tally returned by
`count_podiums` or `count_dnfs` has a count of at least 1; drivers with
zero podiums (respectively zero DNFs) are simply absent from the mapping
rather than present with value 0. -/
theorem tally_entries_positive (fetch : Nat → Option Session)
    (rounds : List Nat) (p : String × Nat) :
    (p ∈ countPodiumsRounds fetch rounds → 1 ≤ p.2)
    ∧ (p ∈ countDnfsRounds fetch rounds → 1 ≤ p.2) := by
  constructor
  · intro hp
    exact mem_countFold_pos fetch podiumDrivers rounds [] (by simp) p
      (by simpa [countPodiumsRounds] using hp)
  · intro hp
    exact mem_countFold_pos fetch dnfDrivers rounds [] (by simp) p
      (by simpa [countDnfsRounds] using hp)

/-- C9 witness: the theorem applied to the entry the example run actually
produces for the race winner. -/
theorem tally_entries_positive_witness :
    1 ≤ (("VER", (1 : Nat))).2 :=
  (tally_entries_positive exFetch [1] ("VER", 1)).1
    (by
      have h : countPodiumsRounds exFetch [1]
          = [("VER", 1), ("HAM", 1), ("PER", 1)] := rfl
      rw [h]
      simp)

/-! ## C10 -/

/-- The points column of a driver's rows in the exported `all_results`. -/
def exportPts (st : ExportState) (d : String) : List ℚ :=
  (st.allResults.filter (fun e => e.driver = d)).map (fun e => e.points)

/-- The `CumulativePoints` column of a driver's rows in the exported
`all_results`. -/
def exportCums (st : ExportState) (d : String) : List ℚ :=
  (st.allResults.filter (fun e => e.driver = d)).map
    (fun e => e.cumulativePoints)

/-- The invariant maintained by the export loop: per driver, the
`driver_points` dict holds the sum of that driver's exported points, and the
`CumulativePoints` column of that driver's rows is the running total of the
points column. -/
def ExportInv (st : ExportState) : Prop :=
  ∀ d : String,
    lookup0 st.driverPoints d = (exportPts st d).sum
    ∧ exportCums st d = runningSums (exportPts st d)

theorem lookup0_bumpBy_self (t : List (String × ℚ)) (k : String) (v : ℚ) :
    lookup0 (bumpBy t k v) k = lookup0 t k + v := by
  induction t with
  | nil => simp [bumpBy, lookup0]
  | cons p t ih =>
    by_cases h : p.1 = k
    · simp [bumpBy, if_pos h, lookup0, List.find?_cons_of_pos, h]
    · simp only [bumpBy, if_neg h]
      rw [lookup0, lookup0, List.find?_cons_of_neg _ (by simp [h]),
        List.find?_cons_of_neg _ (by simp [h])]
      exact ih

theorem lookup0_bumpBy_ne (t : List (String × ℚ)) (k : String) (v : ℚ)
    (d : String) (hd : d ≠ k) :
    lookup0 (bumpBy t k v) d = lookup0 t d := by
  induction t with
  | nil => simp [bumpBy, lookup0, List.find?_cons_of_neg, Ne.symm hd]
  | cons p t ih =>
    by_cases h : p.1 = k
    · by_cases hpd : p.1 = d
      · exact absurd (hpd.symm.trans h) hd
      · rw [bumpBy, if_pos h, lookup0, lookup0,
          List.find?_cons_of_neg _ (by simp [hpd]),
          List.find?_cons_of_neg _ (by simp [hpd])]
    · by_cases hpd : p.1 = d
      · rw [bumpBy, if_neg h, lookup0, lookup0,
          List.find?_cons_of_pos _ (by simp [hpd]),
          List.find?_cons_of_pos _ (by simp [hpd])]
      · rw [bumpBy, if_neg h, lookup0, lookup0,
          List.find?_cons_of_neg _ (by simp [hpd]),
          List.find?_cons_of_neg _ (by simp [hpd])]
        exact ih

theorem runningSumsFrom_append (l : List ℚ) :
    ∀ a x : ℚ,
      runningSumsFrom a (l ++ [x]) = runningSumsFrom a l ++ [a + l.sum + x] := by
  induction l with
  | nil => intro a x; simp [runningSumsFrom]
  | cons y l ih =>
    intro a x
    simp only [List.cons_append, runningSumsFrom, List.append_eq,
      List.sum_cons, ih, add_assoc]

theorem runningSums_append (l : List ℚ) (x : ℚ) :
    runningSums (l ++ [x]) = runningSums l ++ [l.sum + x] := by
  simp [runningSums, runningSumsFrom_append]

theorem getLast?_runningSumsFrom :
    ∀ l : List ℚ, l ≠ [] → ∀ a : ℚ,
      (runningSumsFrom a l).getLast? = some (a + l.sum) := by
  intro l
  induction l with
  | nil => intro h; exact absurd rfl h
  | cons x xs ih =>
    intro _ a
    cases xs with
    | nil => simp [runningSumsFrom]
    | cons y ys =>
      have hy := ih (by simp) (a + x)
      simp only [runningSumsFrom] at hy ⊢
      rw [List.getLast?_cons_cons]
      rw [show (a + x) + y = a + x + y from rfl] at hy
      rw [hy]
      simp [add_assoc]

theorem exportInv_processRow (rnd : Nat) (st : ExportState)
    (row : RaceResultRow) (h : ExportInv st) :
    ExportInv (processRow rnd st row) := by
  intro d
  obtain ⟨h1, h2⟩ := h d
  by_cases hdk : row.abbreviation = d
  · subst hdk
    have hpts : exportPts (processRow rnd st row) row.abbreviation
        = exportPts st row.abbreviation ++ [row.points] := by
      simp [processRow, exportPts, List.filter_append]
    have hcum : exportCums (processRow rnd st row) row.abbreviation
        = exportCums st row.abbreviation
            ++ [lookup0 (bumpBy st.driverPoints row.abbreviation row.points)
                  row.abbreviation] := by
      simp [processRow, exportCums, List.filter_append]
    have hl : lookup0 (bumpBy st.driverPoints row.abbreviation row.points)
        row.abbreviation
        = (exportPts st row.abbreviation).sum + row.points := by
      rw [lookup0_bumpBy_self, h1]
    constructor
    · have hdp : lookup0 (processRow rnd st row).driverPoints row.abbreviation
          = (exportPts st row.abbreviation).sum + row.points := by
        simpa [processRow] using hl
      rw [hdp, hpts]
      simp
    · rw [hcum, hpts, runningSums_append, h2, hl]
  · have hpts : exportPts (processRow rnd st row) d = exportPts st d := by
      simp [processRow, exportPts, List.filter_append, hdk]
    have hcum : exportCums (processRow rnd st row) d = exportCums st d := by
      simp [processRow, exportCums, List.filter_append, hdk]
    have hl : lookup0 (processRow rnd st row).driverPoints d
        = lookup0 st.driverPoints d := by
      simp only [processRow]
      exact lookup0_bumpBy_ne st.driverPoints row.abbreviation row.points d
        (fun hc => hdk hc.symm)
    exact ⟨by rw [hl, hpts, h1], by rw [hcum, hpts, h2]⟩

theorem exportInv_foldRows (rnd : Nat) :
    ∀ (s : Session) (st : ExportState), ExportInv st →
      ExportInv (s.foldl (processRow rnd) st) := by
  intro s
  induction s with
  | nil => intro st h; exact h
  | cons row s ih =>
    intro st h
    exact ih (processRow rnd st row) (exportInv_processRow rnd st row h)

theorem exportInv_empty :
    ExportInv { allResults := [], driverPoints := [], teamPoints := [] } := by
  intro d
  simp [exportPts, exportCums, lookup0, runningSums, runningSumsFrom]

theorem exportInv_exportRounds (fetch : Nat → Option Session) :
    ∀ (rounds : List Nat), ExportInv (exportRounds fetch rounds) := by
  have hfold : ∀ (rounds : List Nat) (st : ExportState), ExportInv st →
      ExportInv (rounds.foldl
        (fun st r =>
          match fetch r with
          | none => st
          | some s => s.foldl (processRow r) st) st) := by
    intro rounds
    induction rounds with
    | nil => intro st h; exact h
    | cons r rounds ih =>
      intro st h
      rw [List.foldl_cons]
      cases hr : fetch r with
      | none => simp only [hr]; exact ih st h
      | some s => simp only [hr]; exact ih _ (exportInv_foldRows r s st h)
  intro rounds
  exact hfold rounds _ exportInv_empty

/-- C10: in every run of `export_full_season_details`, each driver's
`CumulativePoints` column is the running total of that driver's points over
the successfully processed rounds, the `driver_points` standings entry is
the plain total, and (when the driver has any exported rows) the last row's
`CumulativePoints` equals that standings total. -/
theorem cumulative_points_are_running_totals
    (sched : Option (List ScheduleEntry)) (now : ℤ)
    (fetch : Nat → Option Session) (st : ExportState)
    (hst : export_full_season_details sched now fetch = some st) (d : String) :
    exportCums st d = runningSums (exportPts st d)
    ∧ lookup0 st.driverPoints d = (exportPts st d).sum
    ∧ (exportPts st d ≠ [] →
        (exportCums st d).getLast? = some (lookup0 st.driverPoints d)) := by
  cases sched with
  | none => simp [export_full_season_details] at hst
  | some rs =>
    obtain rfl : st = exportRounds fetch (completedRounds rs now) := by
      simpa [export_full_season_details] using hst.symm
    obtain ⟨h1, h2⟩ := exportInv_exportRounds fetch (completedRounds rs now) d
    refine ⟨h2, h1, fun hne => ?_⟩
    rw [h2, h1, runningSums, getLast?_runningSumsFrom _ hne 0, zero_add]

/-- C10 witness: the theorem applied to the example export, in which the
winner has a single exported row whose cumulative points equal the
standings total. -/
theorem cumulative_points_are_running_totals_witness :
    exportCums (exportRounds exFetch (completedRounds exSched 30)) "VER"
      = runningSums (exportPts (exportRounds exFetch (completedRounds exSched 30)) "VER")
    ∧ (exportCums (exportRounds exFetch (completedRounds exSched 30)) "VER").getLast?
      = some (lookup0 (exportRounds exFetch (completedRounds exSched 30)).driverPoints "VER") := by
  have h := cumulative_points_are_running_totals (some exSched) 30 exFetch
    (exportRounds exFetch (completedRounds exSched 30)) rfl "VER"
  exact ⟨h.1, h.2.2 (by decide)⟩
